import Mathlib

/-!
Verification of the time-decayed aggregation engine of the
football-scraper autoencoder project.

The definitions below are shallow embeddings of the Python source:
  * `src/modeling/player_latents_extraction.py` (`get_player_latent_vector`)
  * `src/modeling/autoencoder_model.py` (`clean_dataset`,
    `AggregatedPlayerDataset._init_`)
  * `src/preprocessing/team_stats_preprocessing.py`
    (`preprocess_team_stats`, `aggregate_team_form`)

Modelling conventions:
  * calendar dates are integers (days since an arbitrary epoch), so
    `(target_date - row.date).dt.days` becomes integer subtraction;
  * a feature cell is an `Option`, `none` standing for a missing /
    non-finite (NaN after `replace([inf,-inf], nan)`) value;
  * real-valued weights `np.exp(...)` are `Real.exp`; the aggregation
    core is generic in the weight function so that it can also be
    instantiated at `ℚ` for executable checks;
  * pandas `.sum()` skips NaN cells and `fillna(0)` turns them into `0`,
    both of which are `Option.getD 0` on the cell.
-/

/-- A row of a single player's history table, as consumed by
`get_player_latent_vector`: a date and the numeric feature cells
(one per feature column; `none` is a missing value). -/
structure PRow (α : Type) where
  date : ℤ
  feats : List (Option α)
deriving DecidableEq

/-- A row of the full training table, as consumed by
`AggregatedPlayerDataset._init_`: player id, date, feature cells. -/
structure TRow (α : Type) where
  pid : ℤ
  date : ℤ
  feats : List (Option α)
deriving DecidableEq

/-- The decay weight of the player-latents path, line 34 of
`player_latents_extraction.py`: `np.exp(-alpha * TimeDiff)` where
`TimeDiff = (target_date - Date).dt.days`. -/
noncomputable def playerWeight (alpha : ℝ) (age : ℤ) : ℝ :=
  Real.exp (-(alpha * (age : ℝ)))

/-- The decay weight of the team-form path, line 96 of
`team_stats_preprocessing.py`: `np.exp(alpha * days_from_first)`
(note the positive exponent). -/
noncomputable def teamFormWeight (alpha : ℝ) (daysFromFirst : ℝ) : ℝ :=
  Real.exp (alpha * daysFromFirst)

/-- Lines 92-93 of `team_stats_preprocessing.py`:
`days_from_first = (date - date.min()).dt.days` for each row of the
form window. -/
def daysFromFirst (dates : List ℤ) : List ℤ :=
  match dates.min? with
  | none => []
  | some first => dates.map (fun d => d - first)

/-- The list of weights computed by `aggregate_team_form`
(lines 92-96 of `team_stats_preprocessing.py`) for a window of match
dates. -/
noncomputable def teamFormWeights (alpha : ℝ) (dates : List ℤ) : List ℝ :=
  (daysFromFirst dates).map (fun d => teamFormWeight alpha (d : ℝ))

/-- The aggregation core of `get_player_latent_vector`
(lines 23-49 of `player_latents_extraction.py`), generic in the weight
function `w` (the source uses `w = fun age => exp (-alpha * age)`):
filter to rows strictly before the cutoff (line 24), return `None` on an
empty history (lines 26-28), compute one weight per row (lines 33-34),
fill missing feature cells with 0 (line 40, `fillna(0)`), and return the
per-column quotient `sum(weight_i * value_i) / sum(weight_i)`
(lines 42-49), with the zero-total-weight guard returning `None`
(lines 45-47). `n` is the number of feature columns. -/
def aggregateVector {α : Type} [Field α] [DecidableEq α]
    (w : ℤ → α) (cutoff : ℤ) (rows : List (PRow α)) (n : ℕ) :
    Option (List α) :=
  let hist := rows.filter (fun r => decide (r.date < cutoff))
  if hist.isEmpty then none
  else
    let wts := hist.map (fun r => w (cutoff - r.date))
    if wts.sum = 0 then none
    else some ((List.range n).map (fun j =>
      (hist.map (fun r =>
        w (cutoff - r.date) * ((r.feats.getD j none).getD 0))).sum / wts.sum))

/-- The aggregation actually performed by `get_player_latent_vector`,
with the source's exponential-decay weights. -/
noncomputable def getPlayerLatentAggregate (alpha : ℝ) (cutoff : ℤ)
    (rows : List (PRow ℝ)) (n : ℕ) : Option (List ℝ) :=
  aggregateVector (playerWeight alpha) cutoff rows n

/-- Modelled from the spec (section 4.2, missing-value policy): the
per-column-exclusion aggregation the specification describes — a missing
cell is removed from that column's weighted sum AND from that column's
weight total, so each column has its own denominator. This is the
spec-side definition used to compare against the source's behaviour. -/
def aggregateVectorPerColumnSpec {α : Type} [Field α]
    (w : ℤ → α) (cutoff : ℤ) (rows : List (PRow α)) (n : ℕ) :
    Option (List α) :=
  let hist := rows.filter (fun r => decide (r.date < cutoff))
  if hist.isEmpty then none
  else some ((List.range n).map (fun j =>
    let contrib := hist.filterMap (fun r =>
      (r.feats.getD j none).map (fun v => (w (cutoff - r.date), v)))
    (contrib.map (fun p => p.1 * p.2)).sum / (contrib.map (fun p => p.1)).sum))

/-- Lines 13-16 of `autoencoder_model.py`: `clean_dataset` replaces
`±inf` by `NaN` and then drops every row containing a `NaN`; on our
cell model (`none` = non-finite) this keeps exactly the rows whose
cells are all present. -/
def cleanDataset {α : Type} (t : List (TRow α)) : List (TRow α) :=
  t.filter (fun r => r.feats.all (fun c => c.isSome))

/-- The distinct-or-not list of player ids having a row strictly before
the cutoff (`df_hist = df[df['Date'] < target]`, `hist_ids`,
lines 28-29 of `autoencoder_model.py`); only membership matters. -/
def histIds {α : Type} (cutoff : ℤ) (t : List (TRow α)) : List ℤ :=
  (t.filter (fun r => decide (r.date < cutoff))).map (fun r => r.pid)

/-- The player ids having a row exactly on the cutoff
(`target_players = df[df['Date'] == target]`, `target_ids`,
lines 25-26 of `autoencoder_model.py`). -/
def targetIds {α : Type} (cutoff : ℤ) (t : List (TRow α)) : List ℤ :=
  (t.filter (fun r => decide (r.date = cutoff))).map (fun r => r.pid)

/-- Lines 20-33 of `autoencoder_model.py`: clean the table, compute
`valid_ids = target_ids ∩ hist_ids` and keep the rows whose player id
is in the intersection (`df[df['Player_ID'].isin(valid_ids)]`). -/
def validFilter {α : Type} (cutoff : ℤ) (t : List (TRow α)) :
    List (TRow α) :=
  let tc := cleanDataset t
  tc.filter (fun r =>
    decide (r.pid ∈ histIds cutoff tc ∧ r.pid ∈ targetIds cutoff tc))

/-- Line 35 of `autoencoder_model.py`:
`df_train = df[df['Date'] < self.target_date]` on the id-filtered table. -/
def trainRows {α : Type} (cutoff : ℤ) (t : List (TRow α)) :
    List (TRow α) :=
  (validFilter cutoff t).filter (fun r => decide (r.date < cutoff))

/-- Line 36 of `autoencoder_model.py`:
`df_val = df[df['Date'] == self.target_date]` on the id-filtered table. -/
def valRows {α : Type} (cutoff : ℤ) (t : List (TRow α)) :
    List (TRow α) :=
  (validFilter cutoff t).filter (fun r => decide (r.date = cutoff))

/-- Ascending sort of the distinct elements of a list of ids (the order
pandas `groupby(...)` puts group keys in). -/
def sortedDedup (l : List ℤ) : List ℤ :=
  List.insertionSort (· ≤ ·) l.dedup

/-- The player ids for which `_init_` emits a training pair:
`aggregated['Player_ID'].unique()` (line 60), where `aggregated` is the
`groupby('Player_ID')` of `df_train` — pandas `groupby` sorts group keys,
so the emitted ids are the sorted distinct ids of `df_train`. -/
def emittedIds {α : Type} (cutoff : ℤ) (t : List (TRow α)) : List ℤ :=
  sortedDedup ((trainRows cutoff t).map (fun r => r.pid))

/-- One training pair produced by `AggregatedPlayerDataset._init_`:
player id, aggregated feature vector, ground-truth target vector. -/
structure TrainingPair (α : Type) where
  pid : ℤ
  feats : List α
  target : List α
deriving DecidableEq

/-- Lines 47-66 of `autoencoder_model.py`: for every emitted player id,
the weighted aggregate of its history rows
(`group[feature_cols].multiply(group['Weight']).sum() / group['Weight'].sum()`;
pandas `.sum()` skips missing cells while the weight total keeps the
whole group, hence `Option.getD 0` on the cell) paired with the first
ground-truth row on the cutoff (`.iloc[0]`), both over the common
feature columns `featIdx`. -/
def buildPair {α : Type} [Field α] [DecidableEq α]
    (w : ℤ → α) (cutoff : ℤ) (t : List (TRow α)) (featIdx : List ℕ)
    (p : ℤ) : TrainingPair α :=
  let g := (trainRows cutoff t).filter (fun r => decide (r.pid = p))
  let wt : α := (g.map (fun r => w (cutoff - r.date))).sum
  { pid := p
    feats := featIdx.map (fun j =>
      (g.map (fun r =>
        w (cutoff - r.date) * ((r.feats.getD j none).getD 0))).sum / wt)
    target :=
      match (valRows cutoff t).find? (fun r => decide (r.pid = p)) with
      | some r => featIdx.map (fun j => (r.feats.getD j none).getD 0)
      | none => [] }

/-- The full training-set construction: one pair per emitted id. -/
def buildTrainingSet {α : Type} [Field α] [DecidableEq α]
    (w : ℤ → α) (cutoff : ℤ) (t : List (TRow α)) (featIdx : List ℕ) :
    List (TrainingPair α) :=
  (emittedIds cutoff t).map (buildPair w cutoff t featIdx)

/-- What the caller's table looks like after `get_player_latent_vector`
returns: line 24 of `player_latents_extraction.py` rebinds the parameter
to a filtered `.copy()`, so every later column assignment touches only
the private copy and the caller's table is unchanged. -/
def getPlayerLatent_callerAfter {α : Type} (rows : List (PRow α)) :
    List (PRow α) := rows

/-- What the caller's table looks like after
`AggregatedPlayerDataset._init_` returns: line 20 calls
`clean_dataset(df)`, which uses `replace(..., inplace=True)` and
`dropna(inplace=True)` on the caller's own frame, so the caller's table
has been cleaned in place. -/
def datasetInit_callerAfter {α : Type} (t : List (TRow α)) :
    List (TRow α) := cleanDataset t

/-! ### Concrete example data used by witnesses and counterexamples -/

/-- A rational-valued history row before the cutoff used in examples. -/
def exPA : PRow ℚ := ⟨0, [some 1]⟩

/-- A rational-valued history row after the cutoff used in examples. -/
def exPB : PRow ℚ := ⟨5, [some 9]⟩

/-- Example table containing a row on each side of cutoff 3. -/
def exT1 : List (PRow ℚ) := [exPA, exPB]

/-- Example table equal to `exT1` on the strict-history side of cutoff 3. -/
def exT2 : List (PRow ℚ) := [exPA]

/-- Example training table: entity 1 has one history row (date 0) and
one ground-truth row (date 5). -/
def exTT : List (TRow ℚ) := [⟨1, 0, [some 2]⟩, ⟨1, 5, [some 4]⟩]

/-- The history row of `exTT`. -/
def exTTr : TRow ℚ := ⟨1, 0, [some 2]⟩

/-- A real-valued table whose single row lies after cutoff 3. -/
def exR6 : List (PRow ℝ) := [⟨20, [some 1]⟩]

/-- A real-valued table whose single row lies before cutoff 3. -/
def exR6b : List (PRow ℝ) := [⟨0, [some 1]⟩]

/-! ### C2 — leakage-freedom of the aggregate -/

/-- C2: for every cutoff date and every pair of input tables that agree
on the rows strictly before the cutoff (i.e. differ only in rows with
date on or after the cutoff), the aggregation returns the same result —
no row with `date >= cutoff` influences the aggregate; moreover the
history rows and ground-truth rows selected by the training-set builder
are disjoint (strict `<` versus `=`). -/
theorem c2_no_leakage :
    (∀ (α : Type) (_ : Field α) (_ : DecidableEq α) (w : ℤ → α)
       (cutoff : ℤ) (t1 t2 : List (PRow α)) (n : ℕ),
       t1.filter (fun r => decide (r.date < cutoff)) =
         t2.filter (fun r => decide (r.date < cutoff)) →
       aggregateVector w cutoff t1 n = aggregateVector w cutoff t2 n)
    ∧ (∀ (α : Type) (cutoff : ℤ) (t : List (TRow α)) (r : TRow α),
       r ∈ trainRows cutoff t → r ∉ valRows cutoff t) := by
  constructor
  · intro α hF hD w cutoff t1 t2 n h
    unfold aggregateVector
    rw [h]
  · intro α cutoff t r htrain hval
    simp only [trainRows, valRows, List.mem_filter, decide_eq_true_eq] at htrain hval
    omega

/-- Witness for C2 at concrete inputs: `exT1` and `exT2` differ only in
a row dated after cutoff 3 and get the same aggregate; the history row
of `exTT` is not a ground-truth row. -/
theorem c2_no_leakage_witness :
    (exT1.filter (fun r => decide (r.date < 3)) =
       exT2.filter (fun r => decide (r.date < 3)))
    ∧ aggregateVector (fun _ => (1 : ℚ)) 3 exT1 1 =
        aggregateVector (fun _ => (1 : ℚ)) 3 exT2 1
    ∧ exTTr ∈ trainRows 5 exTT
    ∧ exTTr ∉ valRows 5 exTT :=
  ⟨by decide,
   c2_no_leakage.1 ℚ inferInstance inferInstance (fun _ => (1 : ℚ)) 3 exT1 exT2 1 (by decide),
   by decide,
   c2_no_leakage.2 ℚ 5 exTT exTTr (by decide)⟩

/-! ### C6 — empty history yields an absent result -/

/-- C6: an entity with zero history rows strictly before the cutoff gets
`none` from the latent-extraction aggregation (lines 26-28 of
`player_latents_extraction.py`), never a fabricated zero vector; and
whenever there is at least one history row the result is present (the
exponential weights are strictly positive, so the zero-total-weight
guard of lines 45-47 cannot fire). -/
theorem c6_no_history_absent :
    (∀ (alpha : ℝ) (cutoff : ℤ) (rows : List (PRow ℝ)) (n : ℕ),
       rows.filter (fun r => decide (r.date < cutoff)) = [] →
       getPlayerLatentAggregate alpha cutoff rows n = none)
    ∧ (∀ (alpha : ℝ) (cutoff : ℤ) (rows : List (PRow ℝ)) (n : ℕ),
       rows.filter (fun r => decide (r.date < cutoff)) ≠ [] →
       ∃ v, getPlayerLatentAggregate alpha cutoff rows n = some v) := by
  constructor
  · intro alpha cutoff rows n h
    unfold getPlayerLatentAggregate aggregateVector
    rw [h]
    rfl
  · intro alpha cutoff rows n h
    unfold getPlayerLatentAggregate aggregateVector
    have hempty :
        (rows.filter (fun r => decide (r.date < cutoff))).isEmpty = false := by
      simpa [List.isEmpty_iff] using h
    have hpos :
        0 < ((rows.filter (fun r => decide (r.date < cutoff))).map
          (fun r => playerWeight alpha (cutoff - r.date))).sum := by
      apply List.sum_pos
      · intro x hx
        rcases List.mem_map.mp hx with ⟨r, _, rfl⟩
        exact Real.exp_pos _
      · simpa [List.map_eq_nil_iff] using h
    simp only [hempty, Bool.false_eq_true, if_false]
    rw [if_neg (ne_of_gt hpos)]
    exact ⟨_, rfl⟩

/-- Witness for C6 at concrete inputs: the table `exR6`, whose only row
is dated after the cutoff, aggregates to `none`; the table `exR6b`, with
one row before the cutoff, aggregates to a present vector. -/
theorem c6_no_history_absent_witness :
    (exR6.filter (fun r => decide (r.date < 3)) = [])
    ∧ getPlayerLatentAggregate 1 3 exR6 1 = none
    ∧ (exR6b.filter (fun r => decide (r.date < 3)) ≠ [])
    ∧ ∃ v, getPlayerLatentAggregate 1 3 exR6b 1 = some v :=
  ⟨rfl,
   c6_no_history_absent.1 1 3 exR6 1 rfl,
   List.cons_ne_nil _ _,
   c6_no_history_absent.2 1 3 exR6b 1 (List.cons_ne_nil _ _)⟩

/-! ### C7 — mutation of the caller's table -/

/-- Counterexample to C7: a table holding one row with a missing cell is
not left unchanged by the training-set construction — `clean_dataset`
drops the row from the caller's own frame (`dropna(inplace=True)`,
lines 14-15 of `autoencoder_model.py`). -/
theorem c7_counterexample :
    datasetInit_callerAfter (α := ℚ) [⟨1, 0, [none]⟩] ≠ [⟨1, 0, [none]⟩] := by
  decide

/-- C7 amended: the latent-extraction path leaves the caller's table
unchanged (it works on a filtered `.copy()`), but the training-set
builder mutates the caller's table in place: after the call the caller
holds the cleaned table, a sublist of the original from which every row
containing a missing / non-finite cell has been dropped (rows with all
cells present survive unmodified). -/
theorem c7_mutation_amended :
    (∀ (α : Type) (rows : List (PRow α)),
       getPlayerLatent_callerAfter rows = rows)
    ∧ (∀ (α : Type) (t : List (TRow α)),
       (datasetInit_callerAfter t).Sublist t)
    ∧ (∀ (α : Type) (t : List (TRow α)) (r : TRow α), r ∈ t →
       r.feats.all (fun c => c.isSome) = true →
       r ∈ datasetInit_callerAfter t) := by
  refine ⟨fun α rows => rfl, fun α t => List.filter_sublist t, ?_⟩
  intro α t r hmem hfin
  exact List.mem_filter.mpr ⟨hmem, hfin⟩

/-- Witness for C7 amended at a concrete input: a fully-finite row of
`exTT` survives the in-place cleaning. -/
theorem c7_mutation_amended_witness :
    exTTr ∈ exTT
    ∧ exTTr.feats.all (fun c => c.isSome) = true
    ∧ exTTr ∈ datasetInit_callerAfter exTT :=
  ⟨by decide, by decide,
   c7_mutation_amended.2.2 ℚ exTT exTTr (by decide) (by decide)⟩

/-! ### C1 — the aggregate is the exponentially weighted mean -/

/-- The concrete two-row example of the specification: goals 1.0 at age
14 days and 3.0 at age 7 days (dates 0 and 7, cutoff 14). -/
def exC1 : List (PRow ℝ) := [⟨0, [some 1]⟩, ⟨7, [some 3]⟩]

/-- Shared computation lemma: on a non-empty strict history the
latent-extraction aggregation always takes its `some` branch and
returns the per-column quotient of weighted sums (the weight total is a
non-empty sum of exponentials, hence positive). -/
lemma aggregate_eq_weighted_mean (alpha : ℝ) (cutoff : ℤ)
    (rows : List (PRow ℝ)) (n : ℕ)
    (hne : rows.filter (fun r => decide (r.date < cutoff)) ≠ []) :
    getPlayerLatentAggregate alpha cutoff rows n =
      some ((List.range n).map (fun j =>
        ((rows.filter (fun r => decide (r.date < cutoff))).map (fun r =>
          Real.exp (-(alpha * ((cutoff - r.date : ℤ) : ℝ))) *
            ((r.feats.getD j none).getD 0))).sum /
        ((rows.filter (fun r => decide (r.date < cutoff))).map (fun r =>
          Real.exp (-(alpha * ((cutoff - r.date : ℤ) : ℝ))))).sum)) := by
  unfold getPlayerLatentAggregate aggregateVector
  have hempty :
      (rows.filter (fun r => decide (r.date < cutoff))).isEmpty = false := by
    simpa [List.isEmpty_iff] using hne
  have hpos :
      0 < ((rows.filter (fun r => decide (r.date < cutoff))).map
        (fun r => playerWeight alpha (cutoff - r.date))).sum := by
    apply List.sum_pos
    · intro x hx
      rcases List.mem_map.mp hx with ⟨r, _, rfl⟩
      exact Real.exp_pos _
    · simpa [List.map_eq_nil_iff] using hne
  simp only [hempty, Bool.false_eq_true, if_false]
  rw [if_neg (ne_of_gt hpos)]
  rfl

/-- C1: for every entity with a non-empty history strictly before the
cutoff and finite feature values, `get_player_latent_vector` returns,
per feature column, the weighted mean
`sum(weight_i * value_i) / sum(weight_i)` with
`weight_i = exp(-alpha * age_i)` and `age_i = cutoff - date_i` in days. -/
theorem c1_weighted_mean (alpha : ℝ) (cutoff : ℤ) (rows : List (PRow ℝ))
    (n : ℕ)
    (hne : rows.filter (fun r => decide (r.date < cutoff)) ≠ [])
    (hfin : ∀ r ∈ rows.filter (fun r => decide (r.date < cutoff)),
      ∀ j < n, (r.feats.getD j none).isSome = true) :
    getPlayerLatentAggregate alpha cutoff rows n =
      some ((List.range n).map (fun j =>
        ((rows.filter (fun r => decide (r.date < cutoff))).map (fun r =>
          Real.exp (-(alpha * ((cutoff - r.date : ℤ) : ℝ))) *
            ((r.feats.getD j none).getD 0))).sum /
        ((rows.filter (fun r => decide (r.date < cutoff))).map (fun r =>
          Real.exp (-(alpha * ((cutoff - r.date : ℤ) : ℝ))))).sum)) :=
  aggregate_eq_weighted_mean alpha cutoff rows n hne

/-- Witness for C1 on the specification's concrete scenario: two rows
with goals 1.0 and 3.0 at ages 14 and 7 days, alpha 0.1; the aggregated
goals value is `(exp(-1.4)*1 + exp(-0.7)*3) / (exp(-1.4) + exp(-0.7))`
(approximately 2.3309). -/
theorem c1_weighted_mean_witness :
    (exC1.filter (fun r => decide (r.date < 14)) ≠ [])
    ∧ (∀ r ∈ exC1.filter (fun r => decide (r.date < 14)),
        ∀ j < 1, (r.feats.getD j none).isSome = true)
    ∧ getPlayerLatentAggregate 0.1 14 exC1 1 =
        some [(Real.exp (-1.4) * 1 + Real.exp (-0.7) * 3) /
              (Real.exp (-1.4) + Real.exp (-0.7))] := by
  have hne : exC1.filter (fun r => decide (r.date < 14)) ≠ [] :=
    List.cons_ne_nil _ _
  have hfin : ∀ r ∈ exC1.filter (fun r => decide (r.date < 14)),
      ∀ j < 1, (r.feats.getD j none).isSome = true := by
    intro r hr j hj
    have hj0 : j = 0 := by omega
    subst hj0
    have hr2 : r ∈ [(⟨0, [some 1]⟩ : PRow ℝ), ⟨7, [some 3]⟩] := hr
    fin_cases hr2 <;> rfl
  refine ⟨hne, hfin, ?_⟩
  have h := c1_weighted_mean 0.1 14 exC1 1 hne hfin
  rw [h]
  norm_num [exC1, List.range_succ]

/-! ### C3 — missing-value policy -/

/-- Example history with a missing cell: goals 2.0 at date 0 and a
missing goals value at date 1, cutoff 2. -/
def exC3 : List (PRow ℝ) := [⟨0, [some 2]⟩, ⟨1, [none]⟩]

/-- A training-table row whose only cell is missing. -/
def exTBad : TRow ℚ := ⟨1, 0, [none]⟩

/-- Counterexample to C3: on `exC3` the per-column-exclusion semantics
demanded by the claim yields exactly 2 (the only finite goals value),
but `get_player_latent_vector` gives a different answer: line 40
(`fillna(0)`) coerces the missing cell to zero inside the weighted sum
while the row's weight stays in the denominator. -/
theorem c3_counterexample :
    aggregateVectorPerColumnSpec (playerWeight 0.1) 2 exC3 1 = some [2]
    ∧ getPlayerLatentAggregate 0.1 2 exC3 1 ≠
        aggregateVectorPerColumnSpec (playerWeight 0.1) 2 exC3 1 := by
  have hcode : getPlayerLatentAggregate 0.1 2 exC3 1 =
      some [(Real.exp (-(1/5 : ℝ)) * 2) /
            (Real.exp (-(1/5 : ℝ)) + Real.exp (-(1/10 : ℝ)))] := by
    rw [aggregate_eq_weighted_mean 0.1 2 exC3 1 (List.cons_ne_nil _ _)]
    norm_num [exC3, List.range_succ]
  have hspec : aggregateVectorPerColumnSpec (playerWeight 0.1) 2 exC3 1 =
      some [2] := by
    unfold aggregateVectorPerColumnSpec playerWeight
    norm_num [exC3, List.range_succ, List.filterMap_cons]
  refine ⟨hspec, ?_⟩
  rw [hcode, hspec]
  intro hcon
  have h2 : (Real.exp (-(1/5 : ℝ)) * 2) /
      (Real.exp (-(1/5 : ℝ)) + Real.exp (-(1/10 : ℝ))) = 2 := by
    simpa using hcon
  have hden : (0:ℝ) < Real.exp (-(1/5 : ℝ)) + Real.exp (-(1/10 : ℝ)) := by
    positivity
  rw [div_eq_iff (ne_of_gt hden)] at h2
  have hp : (0:ℝ) < Real.exp (-(1/10 : ℝ)) := Real.exp_pos _
  linarith

/-- C3 amended: the code has two different missing-value policies and
neither is per-column exclusion. In the training path a row containing
any missing / non-finite cell is dropped whole by `clean_dataset`
(drop-row), so it contributes to no column; in the latent-extraction
path a missing cell is coerced to 0 by `fillna(0)` while the row's
weight stays in the weight total (fill-zero), as the concrete
computation on `exC3` shows: the missing cell contributes
`exp(-0.1) * 0` to the numerator yet `exp(-0.1)` remains in the
denominator. -/
theorem c3_missing_policy_amended :
    (∀ (α : Type) (cutoff : ℤ) (t : List (TRow α)) (r : TRow α),
       r.feats.all (fun c => c.isSome) = false →
       r ∉ trainRows cutoff t ∧ r ∉ valRows cutoff t)
    ∧ getPlayerLatentAggregate 0.1 2 exC3 1 =
        some [(Real.exp (-(1/5 : ℝ)) * 2 + Real.exp (-(1/10 : ℝ)) * 0) /
              (Real.exp (-(1/5 : ℝ)) + Real.exp (-(1/10 : ℝ)))] := by
  constructor
  · intro α cutoff t r hbad
    constructor <;> intro hmem
    · simp [trainRows, validFilter, cleanDataset, List.mem_filter, hbad] at hmem
    · simp [valRows, validFilter, cleanDataset, List.mem_filter, hbad] at hmem
  · rw [aggregate_eq_weighted_mean 0.1 2 exC3 1 (List.cons_ne_nil _ _)]
    norm_num [exC3, List.range_succ]

/-- Witness for C3 amended at a concrete input: the all-missing row
`exTBad` is excluded wholesale from both the training rows and the
ground-truth rows of its own table. -/
theorem c3_missing_policy_amended_witness :
    (exTBad.feats.all (fun c => c.isSome) = false)
    ∧ exTBad ∉ trainRows 5 [exTBad]
    ∧ exTBad ∉ valRows 5 [exTBad] :=
  ⟨by decide,
   (c3_missing_policy_amended.1 ℚ 5 [exTBad] exTBad (by decide)).1,
   (c3_missing_policy_amended.1 ℚ 5 [exTBad] exTBad (by decide)).2⟩

/-! ### C4 — weight range and monotonicity -/

/-- Counterexample to C4: in the team-form aggregation the weight of the
newer of two matches one day apart (window dates 0 and 1, alpha 1) is
`exp(+alpha * days_from_first) = exp 1 > 1`, outside the claimed
interval (0, 1]. -/
theorem c4_counterexample :
    ¬ ((teamFormWeights 1 [0, 1]).getD 1 0 ≤ 1) := by
  have h1 : daysFromFirst [0, 1] = [0, 1] := rfl
  have hw : (teamFormWeights 1 [0, 1]).getD 1 0 = Real.exp 1 := by
    simp [teamFormWeights, teamFormWeight, h1]
  rw [hw]
  have h2 := Real.add_one_le_exp 1
  push_neg
  linarith

/-- C4 amended: in the player aggregation the weight
`exp(-alpha * age)` does lie in (0, 1] for non-negative age and positive
alpha and is strictly decreasing in age; but the team-form aggregation
weights with the opposite sign, `exp(+alpha * days_from_first)`, which
is at least 1 and strictly increasing in days-from-first (equivalently,
newer observations still get strictly larger weight, but the weights are
not bounded by 1). -/
theorem c4_weight_range_amended :
    (∀ (alpha : ℝ) (age : ℤ), 0 < alpha → 0 ≤ age →
       0 < playerWeight alpha age ∧ playerWeight alpha age ≤ 1)
    ∧ (∀ (alpha : ℝ) (a1 a2 : ℤ), 0 < alpha → a1 < a2 →
       playerWeight alpha a2 < playerWeight alpha a1)
    ∧ (∀ (alpha d : ℝ), 0 < alpha → 0 ≤ d → 1 ≤ teamFormWeight alpha d)
    ∧ (∀ (alpha d1 d2 : ℝ), 0 < alpha → d1 < d2 →
       teamFormWeight alpha d1 < teamFormWeight alpha d2) := by
  refine ⟨?_, ?_, ?_, ?_⟩
  · intro alpha age halpha hage
    refine ⟨Real.exp_pos _, Real.exp_le_one_iff.mpr ?_⟩
    have h0 : (0:ℝ) ≤ (age : ℝ) := by exact_mod_cast hage
    have := mul_nonneg halpha.le h0
    linarith
  · intro alpha a1 a2 halpha hlt
    apply Real.exp_lt_exp.mpr
    have hc : (a1 : ℝ) < (a2 : ℝ) := by exact_mod_cast hlt
    have := mul_lt_mul_of_pos_left hc halpha
    linarith
  · intro alpha d halpha hd
    exact Real.one_le_exp (mul_nonneg halpha.le hd)
  · intro alpha d1 d2 halpha hlt
    exact Real.exp_lt_exp.mpr (mul_lt_mul_of_pos_left hlt halpha)

/-- Witness for C4 amended at concrete inputs (alpha 1, ages 2 and 3). -/
theorem c4_weight_range_amended_witness :
    (0 < playerWeight 1 2 ∧ playerWeight 1 2 ≤ 1)
    ∧ playerWeight 1 3 < playerWeight 1 2
    ∧ 1 ≤ teamFormWeight 1 2
    ∧ teamFormWeight 1 2 < teamFormWeight 1 3 :=
  ⟨c4_weight_range_amended.1 1 2 (by norm_num) (by norm_num),
   c4_weight_range_amended.2.1 1 2 3 (by norm_num) (by norm_num),
   c4_weight_range_amended.2.2.1 1 2 (by norm_num) (by norm_num),
   c4_weight_range_amended.2.2.2 1 2 3 (by norm_num) (by norm_num)⟩

/-! ### C5 and C9 — eligibility set, ordering and dimensionality of the
training-set builder -/

/-- Characterization of the ids the training-set builder emits: exactly
the ids with a history row AND a ground-truth row in the CLEANED table. -/
lemma mem_emittedIds_iff {α : Type} (cutoff : ℤ) (t : List (TRow α))
    (p : ℤ) :
    p ∈ emittedIds cutoff t ↔
      p ∈ histIds cutoff (cleanDataset t) ∧
        p ∈ targetIds cutoff (cleanDataset t) := by
  unfold emittedIds sortedDedup
  rw [(List.perm_insertionSort (· ≤ ·) _).mem_iff, List.mem_dedup]
  constructor
  · intro hmem
    rcases List.mem_map.mp hmem with ⟨r, hr, rfl⟩
    rcases List.mem_filter.mp hr with ⟨hv, _⟩
    rcases List.mem_filter.mp hv with ⟨_, hids⟩
    exact of_decide_eq_true hids
  · rintro ⟨hh, ht⟩
    rcases List.mem_map.mp hh with ⟨r, hr, rfl⟩
    rcases List.mem_filter.mp hr with ⟨hrc, hrd⟩
    refine List.mem_map.mpr ⟨r, ?_, rfl⟩
    refine List.mem_filter.mpr ⟨?_, hrd⟩
    exact List.mem_filter.mpr ⟨hrc, decide_eq_true ⟨hh, ht⟩⟩

/-- A row with id `p` and date on the cutoff in the cleaned table is a
ground-truth row of the builder whenever `p` is an emitted id. -/
lemma exists_valRow_of_mem_emittedIds {α : Type} (cutoff : ℤ)
    (t : List (TRow α)) (p : ℤ) (hp : p ∈ emittedIds cutoff t) :
    ∃ r ∈ valRows cutoff t, r.pid = p := by
  rcases (mem_emittedIds_iff cutoff t p).mp hp with ⟨hh, ht⟩
  rcases List.mem_map.mp ht with ⟨r, hr, rfl⟩
  rcases List.mem_filter.mp hr with ⟨hrc, hrd⟩
  refine ⟨r, ?_, rfl⟩
  refine List.mem_filter.mpr ⟨?_, hrd⟩
  exact List.mem_filter.mpr ⟨hrc, decide_eq_true ⟨hh, ht⟩⟩

/-- Example table for C5: entity 1 has one raw history row whose only
cell is missing, and one finite ground-truth row on the cutoff. -/
def exC5 : List (TRow ℚ) := [⟨1, 0, [none]⟩, ⟨1, 5, [some 2]⟩]

/-- Counterexample to C5: on the raw input `exC5`, entity 1 has a
history row before cutoff 5 and a ground-truth row on the cutoff, so
the claim puts it in the eligible intersection; but the builder emits
no pair for it, because `clean_dataset` first drops its only history
row (the intersection is computed on the cleaned table). -/
theorem c5_counterexample :
    (1 : ℤ) ∈ histIds 5 exC5 ∧ (1 : ℤ) ∈ targetIds 5 exC5 ∧
      emittedIds 5 exC5 = [] := by
  decide

/-- C5 amended: the set of entities for which the builder emits a pair
equals the intersection of the ids having a history row and the ids
having a ground-truth row in the CLEANED table (the input table after
`clean_dataset` has dropped every row containing a missing / non-finite
value), not in the raw input table. -/
theorem c5_eligibility_amended :
    ∀ (α : Type) (cutoff : ℤ) (t : List (TRow α)) (p : ℤ),
      p ∈ emittedIds cutoff t ↔
        p ∈ histIds cutoff (cleanDataset t) ∧
          p ∈ targetIds cutoff (cleanDataset t) :=
  fun _ => mem_emittedIds_iff

/-- C9: for a fixed input the training-set builder is deterministic
(two invocations give the same value), the emitted entities come in a
stable order sorted by entity id without duplicates, and every pair in
one returned training set uses the same reconciled column list
`featIdx`, so all feature and target vectors share one dimensionality. -/
theorem c9_determinism_order :
    ∀ (α : Type) (F : Field α) (D : DecidableEq α) (w : ℤ → α)
      (cutoff : ℤ) (t : List (TRow α)) (featIdx : List ℕ),
      buildTrainingSet w cutoff t featIdx =
          buildTrainingSet w cutoff t featIdx
      ∧ List.Sorted (· ≤ ·)
          ((buildTrainingSet w cutoff t featIdx).map (fun e => e.pid))
      ∧ ((buildTrainingSet w cutoff t featIdx).map (fun e => e.pid)).Nodup
      ∧ ∀ e ∈ buildTrainingSet w cutoff t featIdx,
          e.feats.length = featIdx.length ∧
            e.target.length = featIdx.length := by
  intro α F D w cutoff t featIdx
  have hmap : (buildTrainingSet w cutoff t featIdx).map (fun e => e.pid) =
      emittedIds cutoff t := by
    unfold buildTrainingSet
    rw [List.map_map]
    have hcomp : ((fun (e : TrainingPair α) => e.pid) ∘
        buildPair w cutoff t featIdx) = id := rfl
    rw [hcomp, List.map_id]
  refine ⟨rfl, ?_, ?_, ?_⟩
  · rw [hmap]
    unfold emittedIds sortedDedup
    exact List.sorted_insertionSort _ _
  · rw [hmap]
    unfold emittedIds sortedDedup
    exact (List.perm_insertionSort _ _).nodup_iff.mpr (List.nodup_dedup _)
  · intro e hmem
    unfold buildTrainingSet at hmem
    rcases List.mem_map.mp hmem with ⟨p, hp, rfl⟩
    unfold buildPair
    refine ⟨List.length_map _ _, ?_⟩
    rcases exists_valRow_of_mem_emittedIds cutoff t p hp with ⟨r, hr, hrp⟩
    rcases hfind : (valRows cutoff t).find? (fun r => decide (r.pid = p)) with
      _ | r2
    · exfalso
      have := List.find?_eq_none.mp hfind r hr
      simp [hrp] at this
    · simp only [hfind]
      exact List.length_map _ _

/-- Witness for C9 at a concrete input: on `exTT` with constant weights
and column list `[0]`, the builder emits the single sorted pair
`(1, [2], [4])`, whose vectors both have length 1. -/
theorem c9_determinism_order_witness :
    List.Sorted (· ≤ ·)
      ((buildTrainingSet (fun _ => (1 : ℚ)) 5 exTT [0]).map (fun e => e.pid))
    ∧ (⟨1, [2], [4]⟩ : TrainingPair ℚ) ∈
        buildTrainingSet (fun _ => (1 : ℚ)) 5 exTT [0]
    ∧ (⟨1, [2], [4]⟩ : TrainingPair ℚ).feats.length = 1
    ∧ (⟨1, [2], [4]⟩ : TrainingPair ℚ).target.length = 1 := by
  have h1 : emittedIds 5 exTT = [1] := by decide
  have htr : trainRows 5 exTT = [⟨1, 0, [some 2]⟩] := by decide
  have hval : valRows 5 exTT = [⟨1, 5, [some 4]⟩] := by decide
  have hpair : buildPair (fun _ => (1 : ℚ)) 5 exTT [0] 1 = ⟨1, [2], [4]⟩ := by
    unfold buildPair
    rw [htr, hval]
    norm_num [List.find?]
  have hmem : (⟨1, [2], [4]⟩ : TrainingPair ℚ) ∈
      buildTrainingSet (fun _ => (1 : ℚ)) 5 exTT [0] := by
    unfold buildTrainingSet
    rw [h1]
    simp [hpair]
  exact ⟨(c9_determinism_order ℚ inferInstance inferInstance
      (fun _ => (1 : ℚ)) 5 exTT [0]).2.1,
    hmem,
    ((c9_determinism_order ℚ inferInstance inferInstance
      (fun _ => (1 : ℚ)) 5 exTT [0]).2.2.2 _ hmem).1,
    ((c9_determinism_order ℚ inferInstance inferInstance
      (fun _ => (1 : ℚ)) 5 exTT [0]).2.2.2 _ hmem).2⟩

/-! ### C8 — which columns are aggregated -/

/-- The pandas dtype of a column, as far as
`select_dtypes(include=[np.number])` is concerned. -/
inductive Dtype
  | numeric
  | datetime
  | obj
deriving DecidableEq

/-- A column of the working table: its name and dtype. -/
structure ColSpec where
  name : String
  dtype : Dtype
deriving DecidableEq

/-- Line 36 of `player_latents_extraction.py` / line 41 of
`autoencoder_model.py`: `select_dtypes(include=[np.number]).columns`. -/
def numericCols (cols : List ColSpec) : List String :=
  (cols.filter (fun c => decide (c.dtype = Dtype.numeric))).map (fun c => c.name)

/-- Line 37 of `player_latents_extraction.py`:
`exclude_cols = ['Player_ID', 'Date', 'TimeDiff', 'Weight']`. -/
def inferenceExclude : List String := ["Player_ID", "Date", "TimeDiff", "Weight"]

/-- Line 42 of `autoencoder_model.py`: the training path filters the
numeric columns only against `['Weight', 'TimeDiff']`. -/
def trainingExclude : List String := ["Weight", "TimeDiff"]

/-- Line 38 of `player_latents_extraction.py`: the feature columns of
the inference path. -/
def featureColsInference (cols : List ColSpec) : List String :=
  (numericCols cols).filter (fun s => decide (s ∉ inferenceExclude))

/-- Line 42 of `autoencoder_model.py`: the feature columns of the
training path. -/
def featureColsTraining (cols : List ColSpec) : List String :=
  (numericCols cols).filter (fun s => decide (s ∉ trainingExclude))

/-- A working-table schema with a numeric `Player_ID` column (the
derived `TimeDiff` and `Weight` columns have been added by the time the
selection runs). -/
def exCols : List ColSpec :=
  [⟨"Player_ID", Dtype.numeric⟩, ⟨"Date", Dtype.datetime⟩,
   ⟨"goals", Dtype.numeric⟩, ⟨"TimeDiff", Dtype.numeric⟩,
   ⟨"Weight", Dtype.numeric⟩]

/-- Counterexample to C8: on a table whose `Player_ID` column is
numeric, the training path's feature columns include the entity
identifier (its exclusion list lacks `Player_ID` and `Date`), while the
inference path's do not — so the two paths do not both compute
"numeric minus all reserved columns". -/
theorem c8_counterexample :
    "Player_ID" ∈ featureColsTraining exCols
    ∧ "Player_ID" ∉ featureColsInference exCols := by
  decide

/-- C8 amended: the inference path aggregates exactly the numeric
columns outside {Player_ID, Date, TimeDiff, Weight}, but the training
path aggregates the numeric columns outside {Weight, TimeDiff} only —
the identifier and the date are omitted there only when their dtype is
non-numeric, so a numeric `Player_ID` column becomes a feature of the
training aggregation. -/
theorem c8_feature_columns_amended :
    ∀ (cols : List ColSpec) (s : String),
      (s ∈ featureColsInference cols ↔
        s ∈ numericCols cols ∧ s ∉ inferenceExclude)
      ∧ (s ∈ featureColsTraining cols ↔
        s ∈ numericCols cols ∧ s ∉ trainingExclude) := by
  intro cols s
  constructor <;> simp [featureColsInference, featureColsTraining, List.mem_filter]

/-! ### C10 — guarded derived columns in team-stats preprocessing -/

/-- A raw team-stats row after scraping: the eight numeric columns of
line 25 of `team_stats_preprocessing.py`, each possibly missing. -/
structure TeamRaw where
  gf : Option ℚ
  ga : Option ℚ
  sh : Option ℚ
  sot : Option ℚ
  dist : Option ℚ
  fk : Option ℚ
  pk : Option ℚ
  pkatt : Option ℚ
deriving DecidableEq

/-- A processed team-stats row with the derived columns of
lines 30-37 of `team_stats_preprocessing.py`. -/
structure TeamStatsRow where
  gf : ℚ
  ga : ℚ
  sh : ℚ
  sot : ℚ
  dist : ℚ
  fk : ℚ
  pk : ℚ
  pkatt : ℚ
  goal_diff : ℚ
  shot_accuracy : ℚ
  pk_conversion : ℚ
  result : String
deriving DecidableEq

/-- Line 27 of `team_stats_preprocessing.py`:
`pd.to_numeric(df[col], errors='coerce').fillna(0)`. -/
def toNum (x : Option ℚ) : ℚ := x.getD 0

/-- Lines 22-41 of `team_stats_preprocessing.py`: coerce the numeric
columns, then add `goal_diff`, the guarded `shot_accuracy`
(`np.where(sh > 0, sot / sh, 0)`), the guarded `pk_conversion`
(`np.where(pkatt > 0, pk / pkatt, 0)`) and the match `result`. -/
def preprocess_team_stats (r : TeamRaw) : TeamStatsRow :=
  let gf := toNum r.gf
  let ga := toNum r.ga
  let sh := toNum r.sh
  let sot := toNum r.sot
  let dist := toNum r.dist
  let fk := toNum r.fk
  let pk := toNum r.pk
  let pkatt := toNum r.pkatt
  { gf := gf, ga := ga, sh := sh, sot := sot, dist := dist, fk := fk,
    pk := pk, pkatt := pkatt
    goal_diff := gf - ga
    shot_accuracy := if 0 < sh then sot / sh else 0
    pk_conversion := if 0 < pkatt then pk / pkatt else 0
    result := if ga < gf then "win" else if gf < ga then "loss" else "draw" }

/-- C10: both derived ratio columns are guarded — `shot_accuracy` is
`sot / sh` exactly when `sh > 0` and `0` when `sh == 0`, and
`pk_conversion` is `pk / pkatt` exactly when `pkatt > 0` and `0` when
`pkatt == 0`, so a zero denominator never reaches a division. -/
theorem c10_guarded_divisions (r : TeamRaw) :
    (0 < toNum r.sh →
      (preprocess_team_stats r).shot_accuracy = toNum r.sot / toNum r.sh)
    ∧ (toNum r.sh = 0 → (preprocess_team_stats r).shot_accuracy = 0)
    ∧ (0 < toNum r.pkatt →
      (preprocess_team_stats r).pk_conversion = toNum r.pk / toNum r.pkatt)
    ∧ (toNum r.pkatt = 0 → (preprocess_team_stats r).pk_conversion = 0) := by
  refine ⟨?_, ?_, ?_, ?_⟩ <;> intro h <;>
    simp [preprocess_team_stats, h]

/-- A raw row with positive shot and penalty-attempt counts. -/
def exTeamA : TeamRaw :=
  ⟨some 2, some 1, some 4, some 2, some 10, some 1, some 1, some 2⟩

/-- A raw row with zero shots and missing penalty attempts (coerced to
zero by `fillna(0)`). -/
def exTeamB : TeamRaw :=
  ⟨some 2, some 1, some 0, some 0, some 10, some 1, none, none⟩

/-- Witness for C10 at concrete rows: both division branches and both
zero branches. -/
theorem c10_guarded_divisions_witness :
    (preprocess_team_stats exTeamA).shot_accuracy =
        toNum exTeamA.sot / toNum exTeamA.sh
    ∧ (preprocess_team_stats exTeamB).shot_accuracy = 0
    ∧ (preprocess_team_stats exTeamA).pk_conversion =
        toNum exTeamA.pk / toNum exTeamA.pkatt
    ∧ (preprocess_team_stats exTeamB).pk_conversion = 0 :=
  ⟨(c10_guarded_divisions exTeamA).1 (by norm_num [toNum, exTeamA]),
   (c10_guarded_divisions exTeamB).2.1 (by norm_num [toNum, exTeamB]),
   (c10_guarded_divisions exTeamA).2.2.1 (by norm_num [toNum, exTeamA]),
   (c10_guarded_divisions exTeamB).2.2.2 (by norm_num [toNum, exTeamB])⟩
